import Mathlib

/-!
# Verification of the django-twilio webhook gate

Shallow embedding of `src/django_twilio/decorators.py` (the Webhook Gate)
together with the Signature Verifier it invokes.  The Verifier
(`twilio.util.RequestValidator`) is not part of this repository's sources,
so it is modelled from the specification's description of the signing
algorithm (HMAC-SHA1 over URL ++ sorted name/value pairs, base64-encoded,
compared with a constant-time equality check).
-/

namespace DjangoTwilio

/-! ## Bytes and bit operations -/

/-- The modulus for 32-bit words. -/
def w32 : Nat := 2 ^ 32

/-- Left-rotate a 32-bit word by `k` bits. -/
def rotl (x k : Nat) : Nat :=
  ((x <<< k) ||| (x >>> (32 - k))) % w32

/-- Bitwise complement of a 32-bit word. -/
def not32 (x : Nat) : Nat := x ^^^ (w32 - 1)

/-- A string viewed as a byte/code-point sequence (inputs are opaque
character data; ASCII in all concrete cases considered here). -/
def strBytes (s : String) : List Nat := s.toList.map Char.toNat

/-- Big-endian 8-byte encoding of a length (in bits). -/
def be64 (n : Nat) : List Nat :=
  [(n >>> 56) % 256, (n >>> 48) % 256, (n >>> 40) % 256, (n >>> 32) % 256,
   (n >>> 24) % 256, (n >>> 16) % 256, (n >>> 8) % 256, n % 256]

/-- Big-endian 4-byte encoding of a 32-bit word. -/
def be32 (n : Nat) : List Nat :=
  [(n >>> 24) % 256, (n >>> 16) % 256, (n >>> 8) % 256, n % 256]

/-! ## SHA-1 (Modelled from the spec: "a cryptographic hash function";
the provider's algorithm is HMAC-SHA1.) -/

/-- SHA-1 message padding: append 0x80, zero bytes up to 56 mod 64, then
the 64-bit big-endian bit length. -/
def sha1Pad (msg : List Nat) : List Nat :=
  let z := (119 - msg.length % 64) % 64
  msg ++ (128 :: List.replicate z 0) ++ be64 (8 * msg.length)

/-- Read a 32-bit big-endian word from four bytes. -/
def word32 (a b c d : Nat) : Nat :=
  ((a % 256) <<< 24) + ((b % 256) <<< 16) + ((c % 256) <<< 8) + d % 256

/-- The sixteen 32-bit words of a 64-byte chunk. -/
def chunkWords (chunk : List Nat) : List Nat :=
  (List.range 16).map fun i =>
    word32 (chunk.getD (4 * i) 0) (chunk.getD (4 * i + 1) 0)
           (chunk.getD (4 * i + 2) 0) (chunk.getD (4 * i + 3) 0)

/-- One message-schedule extension step; the accumulator holds the words
produced so far in reverse order. -/
def extendStep (w : List Nat) : List Nat :=
  rotl ((w.getD 2 0) ^^^ (w.getD 7 0) ^^^ (w.getD 13 0) ^^^ (w.getD 15 0)) 1 :: w

/-- The 80-word message schedule of a chunk. -/
def schedule (chunk : List Nat) : List Nat :=
  (extendStep^[64] (chunkWords chunk).reverse).reverse

/-- SHA-1 round function selection. -/
def sha1F (i b c d : Nat) : Nat :=
  if i < 20 then (b &&& c) ||| (not32 b &&& d)
  else if i < 40 then b ^^^ c ^^^ d
  else if i < 60 then (b &&& c) ||| (b &&& d) ||| (c &&& d)
  else b ^^^ c ^^^ d

/-- SHA-1 round constants. -/
def sha1K (i : Nat) : Nat :=
  if i < 20 then 0x5A827999
  else if i < 40 then 0x6ED9EBA1
  else if i < 60 then 0x8F1BBCDC
  else 0xCA62C1D6

/-- State of the SHA-1 compression loop. -/
structure Sha1State where
  a : Nat
  b : Nat
  c : Nat
  d : Nat
  e : Nat
  deriving Repr, DecidableEq

/-- One round of the SHA-1 compression function. -/
def sha1Round (st : Sha1State) (iw : Nat × Nat) : Sha1State :=
  let t := (rotl st.a 5 + sha1F iw.1 st.b st.c st.d + st.e + sha1K iw.1 + iw.2) % w32
  ⟨t, st.a, rotl st.b 30, st.c, st.d⟩

/-- Process one 64-byte chunk, updating the running hash state. -/
def sha1Chunk (h : Sha1State) (chunk : List Nat) : Sha1State :=
  let st := ((schedule chunk).enum.map (fun p => (p.1, p.2))).foldl sha1Round h
  ⟨(h.a + st.a) % w32, (h.b + st.b) % w32, (h.c + st.c) % w32,
   (h.d + st.d) % w32, (h.e + st.e) % w32⟩

/-- The SHA-1 initial state. -/
def sha1Init : Sha1State :=
  ⟨0x67452301, 0xEFCDAB89, 0x98BADCFE, 0x10325476, 0xC3D2E1F0⟩

/-- SHA-1 digest (20 bytes) of a byte sequence. -/
def sha1 (msg : List Nat) : List Nat :=
  let padded := sha1Pad msg
  let fin := (List.range (padded.length / 64)).foldl
    (fun h i => sha1Chunk h ((padded.drop (64 * i)).take 64)) sha1Init
  be32 fin.a ++ be32 fin.b ++ be32 fin.c ++ be32 fin.d ++ be32 fin.e

/-! ## HMAC-SHA1 and base64 -/

/-- HMAC-SHA1 keyed hash of a message. -/
def hmacSha1 (key msg : List Nat) : List Nat :=
  let k0 := if 64 < key.length then sha1 key else key
  let k := k0 ++ List.replicate (64 - k0.length) 0
  sha1 ((k.map (· ^^^ 0x5c)) ++ sha1 ((k.map (· ^^^ 0x36)) ++ msg))

/-- The base64 alphabet. -/
def b64Alphabet : List Char :=
  "ABCDEFGHIJKLMNOPQRSTUVWXYZabcdefghijklmnopqrstuvwxyz0123456789+/".toList

/-- The base64 character for a 6-bit group. -/
def b64c (n : Nat) : Char := b64Alphabet.getD n '?'

/-- Standard base64 encoding of a byte sequence. -/
def base64 : List Nat → List Char
  | [] => []
  | [b1] => [b64c (b1 >>> 2), b64c ((b1 &&& 3) <<< 4), '=', '=']
  | [b1, b2] =>
      [b64c (b1 >>> 2), b64c (((b1 &&& 3) <<< 4) ||| (b2 >>> 4)),
       b64c ((b2 &&& 15) <<< 2), '=']
  | b1 :: b2 :: b3 :: rest =>
      b64c (b1 >>> 2) :: b64c (((b1 &&& 3) <<< 4) ||| (b2 >>> 4)) ::
      b64c (((b2 &&& 15) <<< 2) ||| (b3 >>> 6)) :: b64c (b3 &&& 63) ::
      base64 rest

/-! ## The Signature Verifier

Modelled from the spec: `twilio.util.RequestValidator` is not among the
repository's sources.  The spec prescribes: concatenate the URL with the
parameters serialized name-then-value, sorted by name; compute an HMAC
(cryptographic hash, base64-encoded) keyed by the secret; compare with
the claimed signature using a constant-time, no-early-exit comparison. -/

/-- The signed message: URL followed by name++value for each parameter,
parameters sorted by name. -/
def signedMessage (url : String) (params : List (String × String)) : String :=
  url ++ String.join
    ((params.insertionSort (fun p q => p.1 ≤ q.1)).map fun p => p.1 ++ p.2)

/-- Modelled from the spec: the provider's signing algorithm —
base64-encoded HMAC-SHA1 of the signed message, keyed by the secret. -/
def compute_signature (secret url : String) (params : List (String × String)) :
    String :=
  String.mk (base64 (hmacSha1 (strBytes secret) (strBytes (signedMessage url params))))

/-- Modelled from the spec: constant-time equality — accumulate the xor of
every byte pair with no early exit, require equal lengths and a zero
accumulator. -/
def secure_compare (x y : String) : Bool :=
  x.toList.length == y.toList.length &&
    ((x.toList.zip y.toList).foldl
      (fun acc p => acc ||| (p.1.toNat ^^^ p.2.toNat)) 0) == 0

/-- Modelled from the spec: `RequestValidator.validate` — recompute the
signature and compare it with the claimed one in constant time. -/
def validate (secret url : String) (params : List (String × String))
    (signature : String) : Bool :=
  secure_compare (compute_signature secret url params) signature

/-! ## The Webhook Gate (`decorated_view` in `decorators.py`)

The Django collaborators are embedded as explicit data: the relevant
pieces of a Django `HttpRequest`, the settings that `decorated_view`
reads, and an `HttpResponse` record covering the constructors used
(`HttpResponse(body, content_type)`, `HttpResponseForbidden()`,
`HttpResponseNotAllowed(method)`) as well as arbitrary prebuilt
responses.  The events a run appends record which externally visible
steps executed, in order. -/

/-- The parts of a Django `HttpRequest` that `decorated_view` reads:
`request.method`, `request.build_absolute_uri()`, `request.GET`,
`request.POST`, and `request.META['HTTP_X_TWILIO_SIGNATURE']`
(`none` when the header is absent, giving `KeyError`). -/
structure TwilioRequest where
  method : String
  url : String
  GET : List (String × String)
  POST : List (String × String)
  signatureHeader : Option String
  deriving Repr, DecidableEq

/-- The settings `decorated_view` reads.  `forgeryProtection` and
`blacklistCheck` are `none` when the setting is not configured, so
`getattr(settings, name, default)` falls back to its default.
`authToken` is `TWILIO_AUTH_TOKEN`; `none` models the secret being
unavailable, which the spec says must be treated as verification
failure (the `except (AttributeError, KeyError)` branch). -/
structure GateSettings where
  debug : Bool
  forgeryProtection : Option Bool
  blacklistCheck : Option Bool
  authToken : Option String
  deriving Repr, DecidableEq

/-- An HTTP response as far as the gate manipulates one: status code,
body (text or raw bytes) and optional content type. -/
structure HttpResponse where
  status : Nat
  body : String
  bodyBytes : Option (List Nat)
  contentType : Option String
  deriving Repr, DecidableEq

/-- `HttpResponse(body, content_type='application/xml')` on a string body. -/
def httpOk (body : String) : HttpResponse :=
  ⟨200, body, none, some "application/xml"⟩

/-- `HttpResponse(body, content_type='application/xml')` on a bytes body. -/
def httpOkBytes (body : List Nat) : HttpResponse :=
  ⟨200, "", some body, some "application/xml"⟩

/-- `HttpResponseForbidden()`. -/
def httpForbidden : HttpResponse := ⟨403, "", none, none⟩

/-- `HttpResponseNotAllowed(request.method)`. -/
def httpNotAllowed (method : String) : HttpResponse := ⟨405, method, none, none⟩

/-- A `twilio.twiml.Verb` markup object, reduced to what the gate uses of
it: its `str(...)` serialization. -/
structure Verb where
  str : String
  deriving Repr, DecidableEq

/-- The value a wrapped handler may return: text (`text_type`), a raw
byte sequence (`bytes`), a `twilio.Verb` markup object, or anything
else — assumed to be an already-built response. -/
inductive HandlerResult where
  | txt (s : String)
  | byt (b : List Nat)
  | verb (v : Verb)
  | response (r : HttpResponse)
  deriving Repr, DecidableEq

/-- Externally visible steps of one gate run, in execution order. -/
inductive Event where
  | methodCheck (method : String)
  | verifyEv (url : String) (params : List (String × String)) (sig : String)
  | blacklistEv
  | handlerEv
  deriving Repr, DecidableEq

/-- The kind of an event, for stating the fixed execution order. -/
inductive EKind where
  | mc | vf | bl | hd
  deriving Repr, DecidableEq

/-- Forget an event's payload. -/
def Event.kind : Event → EKind
  | .methodCheck _ => .mc
  | .verifyEv _ _ _ => .vf
  | .blacklistEv => .bl
  | .handlerEv => .hd

/-- `use_forgery_protection = getattr(settings,
'DJANGO_TWILIO_FORGERY_PROTECTION', not settings.DEBUG)`. -/
def useForgeryProtection (st : GateSettings) : Bool :=
  st.forgeryProtection.getD (!st.debug)

/-- `check_blacklist = getattr(settings, 'DJANGO_TWILIO_BLACKLIST_CHECK',
True)`. -/
def checkBlacklist (st : GateSettings) : Bool :=
  st.blacklistCheck.getD true

/-- The response-coercion tail of `decorated_view`: a string or bytes
value is wrapped into a 200 `application/xml` response, a `Verb` is
serialized with `str(...)` and wrapped the same way, anything else is
returned unchanged. -/
def coerceResponse : HandlerResult → HttpResponse
  | .txt s => httpOk s
  | .byt b => httpOkBytes b
  | .verb v => httpOk v.str
  | .response r => r

/-- The tail of `decorated_view` from the blacklist check on: consult
`get_blacklisted_response` when enabled, then call the wrapped handler
and coerce its return value. -/
def gateAfterAuth (st : GateSettings)
    (blacklist : TwilioRequest → Option HttpResponse)
    (f : TwilioRequest → HandlerResult)
    (req : TwilioRequest) (evs : List Event) : HttpResponse × List Event :=
  if checkBlacklist st then
    let evs := evs ++ [Event.blacklistEv]
    match blacklist req with
    | some resp => (resp, evs)
    | none => (coerceResponse (f req), evs ++ [Event.handlerEv])
  else
    (coerceResponse (f req), evs ++ [Event.handlerEv])

/-- The body of `decorated_view` after the `HttpRequest` assertion:
forgery-protection branch (method check, credential assembly,
verification), then the blacklist check, the handler and response
coercion.  The result pairs the returned response with the trace of
steps executed. -/
def decorated_view (st : GateSettings)
    (blacklist : TwilioRequest → Option HttpResponse)
    (f : TwilioRequest → HandlerResult)
    (req : TwilioRequest) : HttpResponse × List Event :=
  if useForgeryProtection st then
    if ¬(req.method = "GET" ∨ req.method = "POST") then
      (httpNotAllowed req.method, [Event.methodCheck req.method])
    else
      match st.authToken, req.signatureHeader with
      | some token, some sig =>
        if req.method = "POST" then
          let evs := [Event.methodCheck req.method,
                      Event.verifyEv req.url req.POST sig]
          if ¬ validate token req.url req.POST sig then (httpForbidden, evs)
          else gateAfterAuth st blacklist f req evs
        else if req.method = "GET" then
          let evs := [Event.methodCheck req.method,
                      Event.verifyEv req.url req.GET sig]
          if ¬ validate token req.url req.GET sig then (httpForbidden, evs)
          else gateAfterAuth st blacklist f req evs
        else
          gateAfterAuth st blacklist f req [Event.methodCheck req.method]
      | _, _ => (httpForbidden, [Event.methodCheck req.method])
  else
    gateAfterAuth st blacklist f req []

/-- The error a decorated view can raise before producing a response:
the `assert isinstance(request, HttpRequest)` failure. -/
inductive GateError where
  | assertionError
  deriving Repr, DecidableEq

/-- The first positional argument of a decorated view: either an actual
`HttpRequest` or some other Python value. -/
inductive ViewArg where
  | request (r : TwilioRequest)
  | notARequest
  deriving Repr, DecidableEq

/-- Entry point of `decorated_view`: the `assert isinstance(request,
HttpRequest)` guard runs first; only an actual request proceeds into the
gate's checks. -/
def decorated_view_entry (st : GateSettings)
    (blacklist : TwilioRequest → Option HttpResponse)
    (f : TwilioRequest → HandlerResult)
    (arg : ViewArg) : Except GateError (HttpResponse × List Event) :=
  match arg with
  | .notARequest => .error .assertionError
  | .request req => .ok (decorated_view st blacklist f req)

/-! ## Correctness of the constant-time comparison -/

theorem lor_eq_zero_iff (a b : Nat) : a ||| b = 0 ↔ a = 0 ∧ b = 0 := by
  constructor
  · intro h
    constructor <;>
      · apply Nat.zero_of_testBit_eq_false
        intro i
        have h2 := congrArg (fun n => n.testBit i) h
        simp only [Nat.testBit_lor, Nat.zero_testBit, Bool.or_eq_false_iff] at h2
        first | exact h2.1 | exact h2.2
  · rintro ⟨rfl, rfl⟩
    rfl

theorem char_toNat_inj {a b : Char} (h : a.toNat = b.toNat) : a = b := by
  apply Char.ext
  apply UInt32.ext
  exact h

theorem foldl_lor_eq_zero (g : Char × Char → Nat) :
    ∀ (l : List (Char × Char)) (acc : Nat),
      (l.foldl (fun a p => a ||| g p) acc = 0 ↔ acc = 0 ∧ ∀ p ∈ l, g p = 0) := by
  intro l
  induction l with
  | nil => simp
  | cons hd tl ih =>
    intro acc
    simp only [List.foldl_cons, List.mem_cons]
    rw [ih (acc ||| g hd)]
    rw [lor_eq_zero_iff]
    constructor
    · rintro ⟨⟨h1, h2⟩, h3⟩
      exact ⟨h1, fun p hp => hp.elim (fun he => he ▸ h2) (h3 p)⟩
    · rintro ⟨h1, h2⟩
      exact ⟨⟨h1, h2 hd (Or.inl rfl)⟩, fun p hp => h2 p (Or.inr hp)⟩

theorem zip_pointwise_eq :
    ∀ l1 l2 : List Char, l1.length = l2.length →
      ((∀ p ∈ l1.zip l2, p.1 = p.2) ↔ l1 = l2) := by
  intro l1
  induction l1 with
  | nil =>
    intro l2 hlen
    cases l2 with
    | nil => simp
    | cons h t => simp at hlen
  | cons h1 t1 ih =>
    intro l2 hlen
    cases l2 with
    | nil => simp at hlen
    | cons h2 t2 =>
      simp only [List.zip_cons_cons, List.mem_cons, List.cons.injEq]
      simp only [List.length_cons, Nat.succ.injEq] at hlen
      constructor
      · intro hall
        refine ⟨hall (h1, h2) (Or.inl rfl), (ih t2 hlen).mp fun p hp => hall p (Or.inr hp)⟩
      · rintro ⟨rfl, rfl⟩
        rintro p hp
        rcases hp with he | hm
        · rw [he]
        · exact ((ih t1 rfl).mpr rfl) p hm

theorem secure_compare_eq (x y : String) : secure_compare x y = true ↔ x = y := by
  unfold secure_compare
  rw [Bool.and_eq_true, beq_iff_eq, beq_iff_eq,
    foldl_lor_eq_zero (fun p => p.1.toNat ^^^ p.2.toNat)]
  constructor
  · rintro ⟨hlen, -, hall⟩
    have hl : x.toList = y.toList := by
      rw [← zip_pointwise_eq x.toList y.toList hlen]
      intro p hp
      exact char_toNat_inj (Nat.xor_eq_zero.mp (hall p hp))
    have : (String.mk x.toList) = String.mk y.toList := congrArg String.mk hl
    simpa using this
  · rintro rfl
    refine ⟨rfl, rfl, fun p hp => ?_⟩
    rw [Nat.xor_eq_zero]
    exact congrArg Char.toNat ((zip_pointwise_eq x.toList x.toList rfl).mpr rfl p hp)

/-- The Verifier accepts exactly the signature the signing algorithm
produces: `validate` is equality with the recomputed signature. -/
theorem validate_iff (secret url : String) (params : List (String × String))
    (sig : String) :
    validate secret url params sig = true ↔
      compute_signature secret url params = sig := by
  rw [validate, secure_compare_eq]

/-! ## Characterization lemmas for the gate's branches -/

theorem gateAfterAuth_denied {st : GateSettings}
    {bl : TwilioRequest → Option HttpResponse}
    {f : TwilioRequest → HandlerResult} {req : TwilioRequest} {r : HttpResponse}
    (h1 : checkBlacklist st = true) (h2 : bl req = some r) (evs : List Event) :
    gateAfterAuth st bl f req evs = (r, evs ++ [Event.blacklistEv]) := by
  simp [gateAfterAuth, h1, h2]

theorem gateAfterAuth_pass {st : GateSettings}
    {bl : TwilioRequest → Option HttpResponse}
    {f : TwilioRequest → HandlerResult} {req : TwilioRequest}
    (h1 : checkBlacklist st = true) (h2 : bl req = none) (evs : List Event) :
    gateAfterAuth st bl f req evs =
      (coerceResponse (f req), evs ++ [Event.blacklistEv, Event.handlerEv]) := by
  simp [gateAfterAuth, h1, h2]

theorem gateAfterAuth_nocheck {st : GateSettings}
    {bl : TwilioRequest → Option HttpResponse}
    {f : TwilioRequest → HandlerResult} {req : TwilioRequest}
    (h1 : checkBlacklist st = false) (evs : List Event) :
    gateAfterAuth st bl f req evs =
      (coerceResponse (f req), evs ++ [Event.handlerEv]) := by
  simp [gateAfterAuth, h1]

theorem dv_off {st : GateSettings} {bl : TwilioRequest → Option HttpResponse}
    {f : TwilioRequest → HandlerResult} {req : TwilioRequest}
    (h : useForgeryProtection st = false) :
    decorated_view st bl f req = gateAfterAuth st bl f req [] := by
  simp [decorated_view, h]

theorem dv_badMethod {st : GateSettings} {bl : TwilioRequest → Option HttpResponse}
    {f : TwilioRequest → HandlerResult} {req : TwilioRequest}
    (h : useForgeryProtection st = true)
    (hm : ¬(req.method = "GET" ∨ req.method = "POST")) :
    decorated_view st bl f req =
      (httpNotAllowed req.method, [Event.methodCheck req.method]) := by
  simp [decorated_view, h, hm]

theorem dv_noToken {st : GateSettings} {bl : TwilioRequest → Option HttpResponse}
    {f : TwilioRequest → HandlerResult} {req : TwilioRequest}
    (h : useForgeryProtection st = true)
    (hm : req.method = "GET" ∨ req.method = "POST")
    (ht : st.authToken = none) :
    decorated_view st bl f req =
      (httpForbidden, [Event.methodCheck req.method]) := by
  simp [decorated_view, h, hm, ht]

theorem dv_noSig {st : GateSettings} {bl : TwilioRequest → Option HttpResponse}
    {f : TwilioRequest → HandlerResult} {req : TwilioRequest}
    (h : useForgeryProtection st = true)
    (hm : req.method = "GET" ∨ req.method = "POST")
    (hs : req.signatureHeader = none) :
    decorated_view st bl f req =
      (httpForbidden, [Event.methodCheck req.method]) := by
  rcases ht : st.authToken with _ | token <;>
    simp [decorated_view, h, hm, ht, hs]

theorem dv_post {st : GateSettings} {bl : TwilioRequest → Option HttpResponse}
    {f : TwilioRequest → HandlerResult} {req : TwilioRequest}
    {token sig : String}
    (h : useForgeryProtection st = true)
    (hm : req.method = "POST") (ht : st.authToken = some token)
    (hs : req.signatureHeader = some sig) :
    decorated_view st bl f req =
      (if validate token req.url req.POST sig then
        gateAfterAuth st bl f req
          [Event.methodCheck req.method, Event.verifyEv req.url req.POST sig]
      else
        (httpForbidden,
         [Event.methodCheck req.method, Event.verifyEv req.url req.POST sig])) := by
  by_cases hv : validate token req.url req.POST sig <;>
    simp [decorated_view, h, hm, ht, hs, hv]

theorem dv_get {st : GateSettings} {bl : TwilioRequest → Option HttpResponse}
    {f : TwilioRequest → HandlerResult} {req : TwilioRequest}
    {token sig : String}
    (h : useForgeryProtection st = true)
    (hm : req.method = "GET") (ht : st.authToken = some token)
    (hs : req.signatureHeader = some sig) :
    decorated_view st bl f req =
      (if validate token req.url req.GET sig then
        gateAfterAuth st bl f req
          [Event.methodCheck req.method, Event.verifyEv req.url req.GET sig]
      else
        (httpForbidden,
         [Event.methodCheck req.method, Event.verifyEv req.url req.GET sig])) := by
  by_cases hv : validate token req.url req.GET sig <;>
    simp [decorated_view, h, hm, ht, hs, hv]

/-! ## Sample inputs used by the witnesses -/

/-- Debug-mode settings with nothing configured: protection defaults off. -/
def stOff : GateSettings := ⟨true, none, none, none⟩

/-- Production settings: debug off, no explicit overrides, secret set. -/
def stOn : GateSettings := ⟨false, none, none, some "abc123"⟩

/-- A deny-list that denies nobody. -/
def blNone : TwilioRequest → Option HttpResponse := fun _ => none

/-- A deny-list that denies every caller with a fixed redirect response. -/
def blDeny : TwilioRequest → Option HttpResponse :=
  fun _ => some ⟨302, "denied", none, none⟩

/-- A handler returning TwiML text. -/
def handlerTxt : TwilioRequest → HandlerResult := fun _ => .txt "<Response/>"

/-- An unsigned DELETE request. -/
def reqPlain : TwilioRequest := ⟨"DELETE", "https://example.com/sms", [], [], none⟩

/-- An unsigned GET request. -/
def reqGetPlain : TwilioRequest := ⟨"GET", "https://example.com/sms", [], [], none⟩

/-! ## Claims -/

/-- C4: for every request, forgery-protection enforcement equals the
explicit `DJANGO_TWILIO_FORGERY_PROTECTION` value when one is set, and
the negation of `settings.DEBUG` when it is not. -/
theorem C4_forgery_protection_default (st : GateSettings) :
    (∀ b, st.forgeryProtection = some b → useForgeryProtection st = b) ∧
    (st.forgeryProtection = none → useForgeryProtection st = !st.debug) := by
  constructor
  · rintro b hb
    simp [useForgeryProtection, hb]
  · intro h
    simp [useForgeryProtection, h]

/-- Witness for C4: an explicit `some true` overrides debug mode, and with
no explicit value the default is `!DEBUG`. -/
theorem C4_witness :
    useForgeryProtection ⟨true, some true, none, none⟩ = true ∧
    useForgeryProtection ⟨true, none, none, none⟩ = false :=
  ⟨(C4_forgery_protection_default ⟨true, some true, none, none⟩).1 true rfl,
   (C4_forgery_protection_default ⟨true, none, none, none⟩).2 rfl⟩

/-- C3: with protection enabled, a request whose method is outside
{GET, POST} gets `HttpResponseNotAllowed` regardless of any signature,
and only the method check ran — no verification, no deny-list lookup,
no handler. -/
theorem C3_method_not_allowed (st : GateSettings)
    (bl : TwilioRequest → Option HttpResponse)
    (f : TwilioRequest → HandlerResult) (req : TwilioRequest)
    (h : useForgeryProtection st = true)
    (hm : ¬(req.method = "GET" ∨ req.method = "POST")) :
    (decorated_view st bl f req).1 = httpNotAllowed req.method ∧
    (decorated_view st bl f req).2 = [Event.methodCheck req.method] := by
  rw [dv_badMethod h hm]
  exact ⟨rfl, rfl⟩

/-- Witness for C3: a DELETE request in production settings is answered
405 with only the method check executed. -/
theorem C3_witness :
    (decorated_view stOn blNone handlerTxt reqPlain).1 = httpNotAllowed "DELETE" ∧
    (decorated_view stOn blNone handlerTxt reqPlain).2 =
      [Event.methodCheck "DELETE"] :=
  C3_method_not_allowed stOn blNone handlerTxt reqPlain rfl (by decide)

/-- C10: calling a decorated view on a first positional argument that is
not an `HttpRequest` raises `AssertionError` before any check, deny-list
lookup or handler call; no HTTP response (and no trace event) is
produced. -/
theorem C10_assert_http_request (st : GateSettings)
    (bl : TwilioRequest → Option HttpResponse)
    (f : TwilioRequest → HandlerResult) :
    decorated_view_entry st bl f ViewArg.notARequest =
      Except.error GateError.assertionError := rfl

/-- C1: on every run the executed steps are, in order, a sublist of
[method check, verification, deny-list check, handler] — so verification
always precedes the deny-list check, which precedes the handler — and
the handler runs only when every applicable check passed: with
protection on, the method was GET or POST, credentials were present and
the signature validated against the method's own parameter set; with
the blacklist check on, the deny-list did not match. -/
theorem C1_check_order (st : GateSettings)
    (bl : TwilioRequest → Option HttpResponse)
    (f : TwilioRequest → HandlerResult) (req : TwilioRequest) :
    ((decorated_view st bl f req).2.map Event.kind).Sublist
      [EKind.mc, EKind.vf, EKind.bl, EKind.hd] ∧
    (Event.handlerEv ∈ (decorated_view st bl f req).2 →
      (useForgeryProtection st = true →
        (req.method = "GET" ∨ req.method = "POST") ∧
        ∃ token sig, st.authToken = some token ∧
          req.signatureHeader = some sig ∧
          validate token req.url
            (if req.method = "POST" then req.POST else req.GET) sig = true) ∧
      (checkBlacklist st = true → bl req = none)) := by
  by_cases hufp : useForgeryProtection st = true
  · by_cases hm : req.method = "GET" ∨ req.method = "POST"
    · rcases ht : st.authToken with _ | token
      · rw [dv_noToken hufp hm ht]
        refine ⟨by simp only [List.map_append, List.map_cons, List.map_nil, Event.kind]; decide, ?_⟩
        intro hmem
        simp at hmem
      · rcases hs : req.signatureHeader with _ | sig
        · rw [dv_noSig hufp hm hs]
          refine ⟨by simp only [List.map_append, List.map_cons, List.map_nil, Event.kind]; decide, ?_⟩
          intro hmem
          simp at hmem
        · by_cases hpost : req.method = "POST"
          · rw [dv_post hufp hpost ht hs]
            by_cases hv : validate token req.url req.POST sig = true
            · rw [if_pos hv]
              by_cases hcb : checkBlacklist st = true
              · rcases hbl : bl req with _ | r
                · rw [gateAfterAuth_pass hcb hbl]
                  refine ⟨by simp only [List.map_append, List.map_cons, List.map_nil, Event.kind]; decide, ?_⟩
                  intro _
                  refine ⟨fun _ => ⟨hm, token, sig, rfl, rfl, ?_⟩, fun _ => rfl⟩
                  rw [if_pos hpost]
                  exact hv
                · rw [gateAfterAuth_denied hcb hbl]
                  refine ⟨by simp only [List.map_append, List.map_cons, List.map_nil, Event.kind]; decide, ?_⟩
                  intro hmem
                  simp at hmem
              · rw [Bool.not_eq_true] at hcb
                rw [gateAfterAuth_nocheck hcb]
                refine ⟨by simp only [List.map_append, List.map_cons, List.map_nil, Event.kind]; decide, ?_⟩
                intro _
                refine ⟨fun _ => ⟨hm, token, sig, rfl, rfl, ?_⟩, fun h => ?_⟩
                · rw [if_pos hpost]
                  exact hv
                · rw [hcb] at h
                  exact absurd h (by decide)
            · rw [if_neg hv]
              refine ⟨by simp only [List.map_append, List.map_cons, List.map_nil, Event.kind]; decide, ?_⟩
              intro hmem
              simp at hmem
          · have hget : req.method = "GET" := hm.resolve_right hpost
            rw [dv_get hufp hget ht hs]
            by_cases hv : validate token req.url req.GET sig = true
            · rw [if_pos hv]
              by_cases hcb : checkBlacklist st = true
              · rcases hbl : bl req with _ | r
                · rw [gateAfterAuth_pass hcb hbl]
                  refine ⟨by simp only [List.map_append, List.map_cons, List.map_nil, Event.kind]; decide, ?_⟩
                  intro _
                  refine ⟨fun _ => ⟨hm, token, sig, rfl, rfl, ?_⟩, fun _ => rfl⟩
                  rw [if_neg hpost]
                  exact hv
                · rw [gateAfterAuth_denied hcb hbl]
                  refine ⟨by simp only [List.map_append, List.map_cons, List.map_nil, Event.kind]; decide, ?_⟩
                  intro hmem
                  simp at hmem
              · rw [Bool.not_eq_true] at hcb
                rw [gateAfterAuth_nocheck hcb]
                refine ⟨by simp only [List.map_append, List.map_cons, List.map_nil, Event.kind]; decide, ?_⟩
                intro _
                refine ⟨fun _ => ⟨hm, token, sig, rfl, rfl, ?_⟩, fun h => ?_⟩
                · rw [if_neg hpost]
                  exact hv
                · rw [hcb] at h
                  exact absurd h (by decide)
            · rw [if_neg hv]
              refine ⟨by simp only [List.map_append, List.map_cons, List.map_nil, Event.kind]; decide, ?_⟩
              intro hmem
              simp at hmem
    · rw [dv_badMethod hufp hm]
      refine ⟨by simp only [List.map_append, List.map_cons, List.map_nil, Event.kind]; decide, ?_⟩
      intro hmem
      simp at hmem
  · rw [Bool.not_eq_true] at hufp
    rw [dv_off hufp]
    by_cases hcb : checkBlacklist st = true
    · rcases hbl : bl req with _ | r
      · rw [gateAfterAuth_pass hcb hbl]
        refine ⟨by simp only [List.map_append, List.map_cons, List.map_nil, Event.kind]; decide, ?_⟩
        intro _
        refine ⟨fun h => ?_, fun _ => rfl⟩
        rw [hufp] at h
        exact absurd h (by decide)
      · rw [gateAfterAuth_denied hcb hbl]
        refine ⟨by simp only [List.map_append, List.map_cons, List.map_nil, Event.kind]; decide, ?_⟩
        intro hmem
        simp at hmem
    · rw [Bool.not_eq_true] at hcb
      rw [gateAfterAuth_nocheck hcb]
      refine ⟨by simp only [List.map_append, List.map_cons, List.map_nil, Event.kind]; decide, ?_⟩
      intro _
      refine ⟨fun h => ?_, fun h => ?_⟩
      · rw [hufp] at h
        exact absurd h (by decide)
      · rw [hcb] at h
        exact absurd h (by decide)

/-- Witness for C1: with protection off and an empty deny-list the
handler runs, the trace order is within the canonical order, and the
pass conditions hold. -/
theorem C1_witness :
    ((decorated_view stOff blNone handlerTxt reqPlain).2.map Event.kind).Sublist
      [EKind.mc, EKind.vf, EKind.bl, EKind.hd] ∧
    ((useForgeryProtection stOff = true →
        (reqPlain.method = "GET" ∨ reqPlain.method = "POST") ∧
        ∃ token sig, stOff.authToken = some token ∧
          reqPlain.signatureHeader = some sig ∧
          validate token reqPlain.url
            (if reqPlain.method = "POST" then reqPlain.POST else reqPlain.GET)
            sig = true) ∧
      (checkBlacklist stOff = true → blNone reqPlain = none)) :=
  ⟨(C1_check_order stOff blNone handlerTxt reqPlain).1,
   (C1_check_order stOff blNone handlerTxt reqPlain).2 (by decide)⟩

/-- Counterexample to C2 as stated: with protection enabled and the
signature header absent, a DELETE request is answered 405 by the method
check, not 403 — the claim's "returns an HTTP 403 response" fails for
methods outside {GET, POST}. -/
theorem C2_counterexample :
    useForgeryProtection stOn = true ∧
    reqPlain.signatureHeader = none ∧
    (decorated_view stOn blNone handlerTxt reqPlain).1 ≠ httpForbidden := by
  refine ⟨rfl, rfl, ?_⟩
  decide

/-- C2 amended: with forgery protection enabled, for a request whose
method is GET or POST, a missing signature header or an unavailable
secret yields exactly `HttpResponseForbidden` (the exception is caught,
not propagated), with neither the deny-list predicate nor the wrapped
handler invoked. -/
theorem C2_missing_credentials (st : GateSettings)
    (bl : TwilioRequest → Option HttpResponse)
    (f : TwilioRequest → HandlerResult) (req : TwilioRequest)
    (h : useForgeryProtection st = true)
    (hm : req.method = "GET" ∨ req.method = "POST")
    (hcred : st.authToken = none ∨ req.signatureHeader = none) :
    (decorated_view st bl f req).1 = httpForbidden ∧
    Event.handlerEv ∉ (decorated_view st bl f req).2 ∧
    Event.blacklistEv ∉ (decorated_view st bl f req).2 := by
  rcases hcred with ht | hs
  · rw [dv_noToken h hm ht]
    exact ⟨rfl, by simp, by simp⟩
  · rw [dv_noSig h hm hs]
    exact ⟨rfl, by simp, by simp⟩

/-- Witness for the amended C2: an unsigned GET request in production
settings gets 403 and triggers neither the deny-list nor the handler. -/
theorem C2_witness :
    (decorated_view stOn blNone handlerTxt reqGetPlain).1 = httpForbidden ∧
    Event.handlerEv ∉ (decorated_view stOn blNone handlerTxt reqGetPlain).2 ∧
    Event.blacklistEv ∉ (decorated_view stOn blNone handlerTxt reqGetPlain).2 :=
  C2_missing_credentials stOn blNone handlerTxt reqGetPlain rfl
    (Or.inl rfl) (Or.inr rfl)

/-- Counterexample to C5 as stated: with protection disabled but the
caller denied, the wrapped handler is NOT reached, so "every request …
still reaches … the wrapped handler" fails. -/
theorem C5_counterexample :
    useForgeryProtection stOff = false ∧
    Event.handlerEv ∉ (decorated_view stOff blDeny handlerTxt reqPlain).2 := by
  refine ⟨rfl, ?_⟩
  decide

/-- C5 amended: with forgery protection disabled, every request — any
method, with or without a signature — skips the method check and
verification entirely; the deny-list check still runs whenever it is
enabled, and the handler runs whenever the deny-list stage does not
reject. -/
theorem C5_protection_disabled (st : GateSettings)
    (bl : TwilioRequest → Option HttpResponse)
    (f : TwilioRequest → HandlerResult) (req : TwilioRequest)
    (h : useForgeryProtection st = false) :
    (∀ m, Event.methodCheck m ∉ (decorated_view st bl f req).2) ∧
    (∀ u p s, Event.verifyEv u p s ∉ (decorated_view st bl f req).2) ∧
    (checkBlacklist st = true → Event.blacklistEv ∈ (decorated_view st bl f req).2) ∧
    ((checkBlacklist st = true → bl req = none) →
      Event.handlerEv ∈ (decorated_view st bl f req).2) := by
  rw [dv_off h]
  by_cases hcb : checkBlacklist st = true
  · rcases hbl : bl req with _ | r
    · rw [gateAfterAuth_pass hcb hbl]
      exact ⟨by simp, by simp, fun _ => by simp, fun _ => by simp⟩
    · rw [gateAfterAuth_denied hcb hbl]
      refine ⟨by simp, by simp, fun _ => by simp, fun hpass => ?_⟩
      exact absurd (hpass hcb) (by simp)
  · rw [Bool.not_eq_true] at hcb
    rw [gateAfterAuth_nocheck hcb]
    refine ⟨by simp, by simp, fun hc => ?_, fun _ => by simp⟩
    rw [hcb] at hc
    exact absurd hc (by decide)

/-- Witness for the amended C5: debug settings, unsigned DELETE request,
empty deny-list — no method-check or verification event, and the
deny-list check and handler both run. -/
theorem C5_witness :
    (∀ m, Event.methodCheck m ∉ (decorated_view stOff blNone handlerTxt reqPlain).2) ∧
    (∀ u p s, Event.verifyEv u p s ∉ (decorated_view stOff blNone handlerTxt reqPlain).2) ∧
    (checkBlacklist stOff = true →
      Event.blacklistEv ∈ (decorated_view stOff blNone handlerTxt reqPlain).2) ∧
    ((checkBlacklist stOff = true → blNone reqPlain = none) →
      Event.handlerEv ∈ (decorated_view stOff blNone handlerTxt reqPlain).2) :=
  C5_protection_disabled stOff blNone handlerTxt reqPlain rfl

/-- Did this event record a Verifier invocation? -/
def isVerify : Event → Bool
  | .verifyEv _ _ _ => true
  | _ => false

/-- C6: with protection enabled and credentials present, the Verifier is
invoked exactly once, with the GET parameters for a GET request and the
POST parameters for a POST request — never both, never the other set —
and a failed validation yields 403 with neither deny-list nor handler
running. -/
theorem C6_verifier_parameter_set (st : GateSettings)
    (bl : TwilioRequest → Option HttpResponse)
    (f : TwilioRequest → HandlerResult) (req : TwilioRequest)
    (token sig : String)
    (h : useForgeryProtection st = true)
    (ht : st.authToken = some token)
    (hs : req.signatureHeader = some sig) :
    (req.method = "POST" →
      (decorated_view st bl f req).2.filter isVerify =
        [Event.verifyEv req.url req.POST sig] ∧
      (validate token req.url req.POST sig = false →
        (decorated_view st bl f req).1 = httpForbidden ∧
        Event.blacklistEv ∉ (decorated_view st bl f req).2 ∧
        Event.handlerEv ∉ (decorated_view st bl f req).2)) ∧
    (req.method = "GET" →
      (decorated_view st bl f req).2.filter isVerify =
        [Event.verifyEv req.url req.GET sig] ∧
      (validate token req.url req.GET sig = false →
        (decorated_view st bl f req).1 = httpForbidden ∧
        Event.blacklistEv ∉ (decorated_view st bl f req).2 ∧
        Event.handlerEv ∉ (decorated_view st bl f req).2)) := by
  constructor
  · intro hpost
    rw [dv_post h hpost ht hs]
    by_cases hv : validate token req.url req.POST sig = true
    · rw [if_pos hv]
      refine ⟨?_, fun hvf => absurd hv (by simp [hvf])⟩
      by_cases hcb : checkBlacklist st = true
      · rcases hbl : bl req with _ | r
        · rw [gateAfterAuth_pass hcb hbl]
          simp [isVerify]
        · rw [gateAfterAuth_denied hcb hbl]
          simp [isVerify]
      · rw [Bool.not_eq_true] at hcb
        rw [gateAfterAuth_nocheck hcb]
        simp [isVerify]
    · rw [if_neg hv]
      refine ⟨by simp [isVerify], fun _ => ⟨rfl, by simp, by simp⟩⟩
  · intro hget
    have hpost : ¬ req.method = "POST" := by
      rw [hget]
      decide
    rw [dv_get h hget ht hs]
    by_cases hv : validate token req.url req.GET sig = true
    · rw [if_pos hv]
      refine ⟨?_, fun hvf => absurd hv (by simp [hvf])⟩
      by_cases hcb : checkBlacklist st = true
      · rcases hbl : bl req with _ | r
        · rw [gateAfterAuth_pass hcb hbl]
          simp [isVerify]
        · rw [gateAfterAuth_denied hcb hbl]
          simp [isVerify]
      · rw [Bool.not_eq_true] at hcb
        rw [gateAfterAuth_nocheck hcb]
        simp [isVerify]
    · rw [if_neg hv]
      refine ⟨by simp [isVerify], fun _ => ⟨rfl, by simp, by simp⟩⟩

/-- Witness for C6: a GET request carrying an (invalid, empty) claimed
signature in production settings — the Verifier sees exactly the GET
parameter set. -/
theorem C6_witness :
    (({ method := "GET", url := "https://example.com/sms", GET := [("A","1")],
        POST := [], signatureHeader := some "" } : TwilioRequest).method = "POST" →
      (decorated_view stOn blNone handlerTxt
        { method := "GET", url := "https://example.com/sms", GET := [("A","1")],
          POST := [], signatureHeader := some "" }).2.filter isVerify =
        [Event.verifyEv "https://example.com/sms" [] ""] ∧
      (validate "abc123" "https://example.com/sms" [] "" = false →
        (decorated_view stOn blNone handlerTxt
          { method := "GET", url := "https://example.com/sms", GET := [("A","1")],
            POST := [], signatureHeader := some "" }).1 = httpForbidden ∧
        Event.blacklistEv ∉ (decorated_view stOn blNone handlerTxt
          { method := "GET", url := "https://example.com/sms", GET := [("A","1")],
            POST := [], signatureHeader := some "" }).2 ∧
        Event.handlerEv ∉ (decorated_view stOn blNone handlerTxt
          { method := "GET", url := "https://example.com/sms", GET := [("A","1")],
            POST := [], signatureHeader := some "" }).2)) ∧
    (({ method := "GET", url := "https://example.com/sms", GET := [("A","1")],
        POST := [], signatureHeader := some "" } : TwilioRequest).method = "GET" →
      (decorated_view stOn blNone handlerTxt
        { method := "GET", url := "https://example.com/sms", GET := [("A","1")],
          POST := [], signatureHeader := some "" }).2.filter isVerify =
        [Event.verifyEv "https://example.com/sms" [("A","1")] ""] ∧
      (validate "abc123" "https://example.com/sms" [("A","1")] "" = false →
        (decorated_view stOn blNone handlerTxt
          { method := "GET", url := "https://example.com/sms", GET := [("A","1")],
            POST := [], signatureHeader := some "" }).1 = httpForbidden ∧
        Event.blacklistEv ∉ (decorated_view stOn blNone handlerTxt
          { method := "GET", url := "https://example.com/sms", GET := [("A","1")],
            POST := [], signatureHeader := some "" }).2 ∧
        Event.handlerEv ∉ (decorated_view stOn blNone handlerTxt
          { method := "GET", url := "https://example.com/sms", GET := [("A","1")],
            POST := [], signatureHeader := some "" }).2)) :=
  C6_verifier_parameter_set stOn blNone handlerTxt
    { method := "GET", url := "https://example.com/sms", GET := [("A","1")],
      POST := [], signatureHeader := some "" } "abc123" "" rfl rfl rfl

/-- Exhaustive case analysis of a `decorated_view` run up to the
post-authentication stage. -/
theorem dv_master (st : GateSettings) (bl : TwilioRequest → Option HttpResponse)
    (f : TwilioRequest → HandlerResult) (req : TwilioRequest) :
    (useForgeryProtection st = true ∧ ¬(req.method = "GET" ∨ req.method = "POST") ∧
      decorated_view st bl f req =
        (httpNotAllowed req.method, [Event.methodCheck req.method])) ∨
    (useForgeryProtection st = true ∧ (req.method = "GET" ∨ req.method = "POST") ∧
      (st.authToken = none ∨ req.signatureHeader = none) ∧
      decorated_view st bl f req = (httpForbidden, [Event.methodCheck req.method])) ∨
    (∃ token sig params, useForgeryProtection st = true ∧
      (req.method = "GET" ∨ req.method = "POST") ∧
      st.authToken = some token ∧ req.signatureHeader = some sig ∧
      params = (if req.method = "POST" then req.POST else req.GET) ∧
      validate token req.url params sig = false ∧
      decorated_view st bl f req =
        (httpForbidden,
         [Event.methodCheck req.method, Event.verifyEv req.url params sig])) ∨
    (∃ token sig params, useForgeryProtection st = true ∧
      (req.method = "GET" ∨ req.method = "POST") ∧
      st.authToken = some token ∧ req.signatureHeader = some sig ∧
      params = (if req.method = "POST" then req.POST else req.GET) ∧
      validate token req.url params sig = true ∧
      decorated_view st bl f req = gateAfterAuth st bl f req
        [Event.methodCheck req.method, Event.verifyEv req.url params sig]) ∨
    (useForgeryProtection st = false ∧
      decorated_view st bl f req = gateAfterAuth st bl f req []) := by
  by_cases hufp : useForgeryProtection st = true
  · by_cases hm : req.method = "GET" ∨ req.method = "POST"
    · rcases ht : st.authToken with _ | token
      · exact Or.inr (Or.inl ⟨hufp, hm, Or.inl rfl, dv_noToken hufp hm ht⟩)
      · rcases hs : req.signatureHeader with _ | sig
        · exact Or.inr (Or.inl ⟨hufp, hm, Or.inr rfl, dv_noSig hufp hm hs⟩)
        · by_cases hpost : req.method = "POST"
          · by_cases hv : validate token req.url req.POST sig = true
            · refine Or.inr (Or.inr (Or.inr (Or.inl
                ⟨token, sig, req.POST, hufp, hm, rfl, rfl, (if_pos hpost).symm, hv, ?_⟩)))
              rw [dv_post hufp hpost ht hs, if_pos hv]
            · rw [Bool.not_eq_true] at hv
              refine Or.inr (Or.inr (Or.inl
                ⟨token, sig, req.POST, hufp, hm, rfl, rfl, (if_pos hpost).symm, hv, ?_⟩))
              rw [dv_post hufp hpost ht hs, if_neg (by simp [hv])]
          · have hget : req.method = "GET" := hm.resolve_right hpost
            by_cases hv : validate token req.url req.GET sig = true
            · refine Or.inr (Or.inr (Or.inr (Or.inl
                ⟨token, sig, req.GET, hufp, hm, rfl, rfl, (if_neg hpost).symm, hv, ?_⟩)))
              rw [dv_get hufp hget ht hs, if_pos hv]
            · rw [Bool.not_eq_true] at hv
              refine Or.inr (Or.inr (Or.inl
                ⟨token, sig, req.GET, hufp, hm, rfl, rfl, (if_neg hpost).symm, hv, ?_⟩))
              rw [dv_get hufp hget ht hs, if_neg (by simp [hv])]
    · exact Or.inl ⟨hufp, hm, dv_badMethod hufp hm⟩
  · rw [Bool.not_eq_true] at hufp
    exact Or.inr (Or.inr (Or.inr (Or.inr ⟨hufp, dv_off hufp⟩)))

/-- Exhaustive case analysis of the post-authentication stage. -/
theorem gateAfterAuth_master (st : GateSettings)
    (bl : TwilioRequest → Option HttpResponse)
    (f : TwilioRequest → HandlerResult) (req : TwilioRequest) (evs : List Event) :
    (checkBlacklist st = true ∧ ∃ r, bl req = some r ∧
      gateAfterAuth st bl f req evs = (r, evs ++ [Event.blacklistEv])) ∨
    (checkBlacklist st = true ∧ bl req = none ∧
      gateAfterAuth st bl f req evs =
        (coerceResponse (f req), evs ++ [Event.blacklistEv, Event.handlerEv])) ∨
    (checkBlacklist st = false ∧
      gateAfterAuth st bl f req evs =
        (coerceResponse (f req), evs ++ [Event.handlerEv])) := by
  by_cases hcb : checkBlacklist st = true
  · rcases hbl : bl req with _ | r
    · exact Or.inr (Or.inl ⟨hcb, rfl, gateAfterAuth_pass hcb hbl evs⟩)
    · exact Or.inl ⟨hcb, r, rfl, gateAfterAuth_denied hcb hbl evs⟩
  · rw [Bool.not_eq_true] at hcb
    exact Or.inr (Or.inr ⟨hcb, gateAfterAuth_nocheck hcb evs⟩)

/-- Whenever the handler ran, the gate's response is the coercion of the
handler's return value. -/
theorem dv_handler_resp (st : GateSettings)
    (bl : TwilioRequest → Option HttpResponse)
    (f : TwilioRequest → HandlerResult) (req : TwilioRequest)
    (hmem : Event.handlerEv ∈ (decorated_view st bl f req).2) :
    (decorated_view st bl f req).1 = coerceResponse (f req) := by
  rcases dv_master st bl f req with
    ⟨-, -, heq⟩ | ⟨-, -, -, heq⟩ | ⟨t, s, p, -, -, -, -, -, -, heq⟩ |
    ⟨t, s, p, -, -, -, -, -, -, heq⟩ | ⟨-, heq⟩
  · rw [heq] at hmem
    simp at hmem
  · rw [heq] at hmem
    simp at hmem
  · rw [heq] at hmem
    simp at hmem
  · rw [heq] at hmem ⊢
    rcases gateAfterAuth_master st bl f req
        [Event.methodCheck req.method, Event.verifyEv req.url p s] with
      ⟨-, r, -, geq⟩ | ⟨-, -, geq⟩ | ⟨-, geq⟩
    · rw [geq] at hmem
      simp at hmem
    · rw [geq]
    · rw [geq]
  · rw [heq] at hmem ⊢
    rcases gateAfterAuth_master st bl f req [] with
      ⟨-, r, -, geq⟩ | ⟨-, -, geq⟩ | ⟨-, geq⟩
    · rw [geq] at hmem
      simp at hmem
    · rw [geq]
    · rw [geq]

/-- C7: whenever the wrapped handler ran, a string return value becomes a
200 response with that body and the `application/xml` content type, a
bytes value likewise with the bytes as body, a `Verb` is serialized via
`str(...)` and wrapped the same way, and any other value is returned
exactly as the handler produced it, untouched. -/
theorem C7_handler_result_coercion (st : GateSettings)
    (bl : TwilioRequest → Option HttpResponse)
    (f : TwilioRequest → HandlerResult) (req : TwilioRequest)
    (hmem : Event.handlerEv ∈ (decorated_view st bl f req).2) :
    (decorated_view st bl f req).1 =
      match f req with
      | .txt s => ⟨200, s, none, some "application/xml"⟩
      | .byt b => ⟨200, "", some b, some "application/xml"⟩
      | .verb v => ⟨200, v.str, none, some "application/xml"⟩
      | .response r => r := by
  rw [dv_handler_resp st bl f req hmem]
  rcases hf : f req with s | b | v | r <;> rfl

/-- Witness for C7: the sample handler's TwiML string comes back as the
body of a 200 `application/xml` response. -/
theorem C7_witness :
    (decorated_view stOff blNone handlerTxt reqPlain).1 =
      ⟨200, "<Response/>", none, some "application/xml"⟩ := by
  have h := C7_handler_result_coercion stOff blNone handlerTxt reqPlain (by decide)
  simpa [handlerTxt] using h

/-- Counterexample to C8 as stated: with the blacklist setting at its
default `true` but a request failing verification (missing header), the
deny-list check does not run — "runs if and only if the setting is true"
fails in the only-if→if direction. -/
theorem C8_counterexample :
    checkBlacklist stOn = true ∧
    Event.blacklistEv ∉ (decorated_view stOn blDeny handlerTxt reqGetPlain).2 := by
  refine ⟨rfl, ?_⟩
  decide

/-- C8 amended: the deny-list check runs only when the blacklist setting
(default `true`) is enabled; for every request that passes or skips
forgery protection it runs exactly when the setting is enabled,
regardless of whether protection was enforced; and when the deny-list
predicate returns a response, the gate returns exactly that
collaborator-supplied response and stops before the handler. -/
theorem C8_blacklist_stage (st : GateSettings)
    (bl : TwilioRequest → Option HttpResponse)
    (f : TwilioRequest → HandlerResult) (req : TwilioRequest) :
    (Event.blacklistEv ∈ (decorated_view st bl f req).2 →
      checkBlacklist st = true) ∧
    (checkBlacklist st = true →
      (useForgeryProtection st = false ∨
        (useForgeryProtection st = true ∧
          ∃ token sig, (req.method = "GET" ∨ req.method = "POST") ∧
            st.authToken = some token ∧ req.signatureHeader = some sig ∧
            validate token req.url
              (if req.method = "POST" then req.POST else req.GET) sig = true)) →
      Event.blacklistEv ∈ (decorated_view st bl f req).2) ∧
    (∀ r, bl req = some r → Event.blacklistEv ∈ (decorated_view st bl f req).2 →
      (decorated_view st bl f req).1 = r ∧
      Event.handlerEv ∉ (decorated_view st bl f req).2) := by
  refine ⟨?_, ?_, ?_⟩
  · intro hmem
    rcases dv_master st bl f req with
      ⟨-, -, heq⟩ | ⟨-, -, -, heq⟩ | ⟨t, s, p, -, -, -, -, -, -, heq⟩ |
      ⟨t, s, p, -, -, -, -, -, -, heq⟩ | ⟨-, heq⟩
    · rw [heq] at hmem
      simp at hmem
    · rw [heq] at hmem
      simp at hmem
    · rw [heq] at hmem
      simp at hmem
    · rw [heq] at hmem
      rcases gateAfterAuth_master st bl f req
          [Event.methodCheck req.method, Event.verifyEv req.url p s] with
        ⟨hcb, r, -, geq⟩ | ⟨hcb, -, geq⟩ | ⟨hcb, geq⟩
      · exact hcb
      · exact hcb
      · rw [geq] at hmem
        simp at hmem
    · rw [heq] at hmem
      rcases gateAfterAuth_master st bl f req [] with
        ⟨hcb, r, -, geq⟩ | ⟨hcb, -, geq⟩ | ⟨hcb, geq⟩
      · exact hcb
      · exact hcb
      · rw [geq] at hmem
        simp at hmem
  · intro hcb hdisj
    rcases hdisj with hufp | ⟨hufp, token, sig, hm, ht, hs, hv⟩
    · rw [dv_off hufp]
      rcases hbl : bl req with _ | r
      · rw [gateAfterAuth_pass hcb hbl]
        simp
      · rw [gateAfterAuth_denied hcb hbl]
        simp
    · by_cases hpost : req.method = "POST"
      · rw [if_pos hpost] at hv
        rw [dv_post hufp hpost ht hs, if_pos hv]
        rcases hbl : bl req with _ | r
        · rw [gateAfterAuth_pass hcb hbl]
          simp
        · rw [gateAfterAuth_denied hcb hbl]
          simp
      · have hget : req.method = "GET" := hm.resolve_right hpost
        rw [if_neg hpost] at hv
        rw [dv_get hufp hget ht hs, if_pos hv]
        rcases hbl : bl req with _ | r
        · rw [gateAfterAuth_pass hcb hbl]
          simp
        · rw [gateAfterAuth_denied hcb hbl]
          simp
  · intro r hbl hmem
    rcases dv_master st bl f req with
      ⟨-, -, heq⟩ | ⟨-, -, -, heq⟩ | ⟨t, s, p, -, -, -, -, -, -, heq⟩ |
      ⟨t, s, p, -, -, -, -, -, -, heq⟩ | ⟨-, heq⟩
    · rw [heq] at hmem
      simp at hmem
    · rw [heq] at hmem
      simp at hmem
    · rw [heq] at hmem
      simp at hmem
    · rw [heq] at hmem ⊢
      rcases gateAfterAuth_master st bl f req
          [Event.methodCheck req.method, Event.verifyEv req.url p s] with
        ⟨-, r', hbl', geq⟩ | ⟨-, hbl', geq⟩ | ⟨-, geq⟩
      · have hrr : r' = r := by
          rw [hbl] at hbl'
          exact (Option.some.inj hbl').symm
        rw [geq, hrr]
        exact ⟨rfl, by simp⟩
      · rw [hbl] at hbl'
        exact absurd hbl' (by simp)
      · rw [geq] at hmem
        simp at hmem
    · rw [heq] at hmem ⊢
      rcases gateAfterAuth_master st bl f req [] with
        ⟨-, r', hbl', geq⟩ | ⟨-, hbl', geq⟩ | ⟨-, geq⟩
      · have hrr : r' = r := by
          rw [hbl] at hbl'
          exact (Option.some.inj hbl').symm
        rw [geq, hrr]
        exact ⟨rfl, by simp⟩
      · rw [hbl] at hbl'
        exact absurd hbl' (by simp)
      · rw [geq] at hmem
        simp at hmem

/-- Witness for the amended C8: a denying deny-list makes the gate return
the collaborator's own 302 response, with the handler never invoked. -/
theorem C8_witness :
    (decorated_view stOff blDeny handlerTxt reqPlain).1 =
      (⟨302, "denied", none, none⟩ : HttpResponse) ∧
    Event.handlerEv ∉ (decorated_view stOff blDeny handlerTxt reqPlain).2 :=
  (C8_blacklist_stage stOff blDeny handlerTxt reqPlain).2.2
    ⟨302, "denied", none, none⟩ rfl (by decide)

/-- `t` is `s` with exactly one byte changed: equal lengths, one position
differing, all other positions (within range) equal. -/
def singleByteMutation (s t : String) : Prop :=
  s.toList.length = t.toList.length ∧
  ∃ i ∈ List.range s.toList.length,
    s.toList.getD i ' ' ≠ t.toList.getD i ' ' ∧
    ∀ j ∈ List.range s.toList.length, j ≠ i →
      s.toList.getD j ' ' = t.toList.getD j ' '

instance (s t : String) : Decidable (singleByteMutation s t) := by
  unfold singleByteMutation
  infer_instance

/-- A single-byte mutation of a string is a different string. -/
theorem singleByteMutation_ne {s t : String} (h : singleByteMutation s t) :
    s ≠ t := by
  rcases h with ⟨-, i, -, hne, -⟩
  intro he
  exact hne (by rw [he])

/-- C9: the Verifier accepts the signature computed by the provider's
signing algorithm over the same secret, URL and parameters, and rejects
every single-byte mutation of that signature — no partial-match
acceptance. -/
theorem C9_signature_roundtrip (secret url : String)
    (params : List (String × String)) :
    validate secret url params (compute_signature secret url params) = true ∧
    ∀ sig', singleByteMutation (compute_signature secret url params) sig' →
      validate secret url params sig' = false := by
  constructor
  · rw [validate_iff]
  · intro sig' hmut
    have hne := singleByteMutation_ne hmut
    have : ¬ (validate secret url params sig' = true) := fun h =>
      hne ((validate_iff secret url params sig').mp h)
    rwa [Bool.not_eq_true] at this

set_option maxRecDepth 16384 in
/-- Witness for C9: the concrete signature of (secret `abc`, URL
`https://u`, no parameters) is accepted, and flipping its first byte is
rejected. -/
theorem C9_witness :
    validate "abc" "https://u" [] (compute_signature "abc" "https://u" []) = true ∧
    validate "abc" "https://u" [] "NxFKoj/Cbyr+T1X4Sci2beFDA/4=" = false :=
  ⟨(C9_signature_roundtrip "abc" "https://u" []).1,
   (C9_signature_roundtrip "abc" "https://u" []).2 "NxFKoj/Cbyr+T1X4Sci2beFDA/4="
     (by
       have h : compute_signature "abc" "https://u" [] =
           "MxFKoj/Cbyr+T1X4Sci2beFDA/4=" := rfl
       rw [h]
       decide)⟩

end DjangoTwilio
